import Mathlib

/-!
Shallow embedding of skx/aws-list (src/main.go).

The program lists EC2 instances across one or more accounts and reports,
per instance, the account, instance id, display name, image id and image
age in days.  The AWS client is modelled as a record of two oracles:
one for DescribeInstances (taking the instance-state-name filter values)
and one for DescribeImages (taking the image id).  The process-global
creation-date cache is threaded explicitly, and every provider query is
recorded in a trace so that call-count claims can be stated.
-/

/-- An EC2 tag: a key/value pair. -/
structure Tag where
  key : String
  value : String
  deriving DecidableEq, Repr

/-- An EC2 instance as consumed by Sync: instance id, tags, image id and
lifecycle state.  The Go code reads InstanceId, Tags and ImageId; the
state field records what the provider reported, and Sync never reads it. -/
structure Instance where
  instanceId : String
  tags : List Tag
  imageId : String
  state : String
  deriving DecidableEq, Repr

/-- An AMI record as consumed by amiCreation: only its creation date. -/
structure Image where
  creationDate : String
  deriving DecidableEq, Repr

/-- The provider client (ec2.EC2 handle).  describeInstances takes the
values of the instance-state-name filter and returns reservations, each a
list of instances; describeImages takes one image id (the Go code always
filters to exactly one id).  Errors are strings. -/
structure EC2 where
  describeInstances : List String → Except String (List (List Instance))
  describeImages : String → Except String (List Image)

/-- The process-wide creation-date cache, map from image id to date string.
Modelled as an association list; the Go code always checks membership
before inserting, so cons-insertion agrees with Go map assignment. -/
abbrev Cache := List (String × String)

/-- amiCreation from main.go: look the id up in the cache; on a miss query
DescribeImages for exactly that id; on transport error fail without
touching the cache; on an empty result fail without touching the cache;
otherwise cache and return the first image's creation date.  Returns the
new cache, the trace of image ids queried at the provider (empty or a
singleton), and the result. -/
def amiCreation (svc : EC2) (cache : Cache) (id : String) :
    Cache × List String × Except String String :=
  match cache.lookup id with
  | some cached => (cache, [], Except.ok cached)
  | none =>
    match svc.describeImages id with
    | Except.error e =>
      (cache, [id], Except.error ("error getting image info: " ++ e))
    | Except.ok images =>
      match images with
      | img :: _ =>
        ((id, img.creationDate) :: cache, [id], Except.ok img.creationDate)
      | [] => (cache, [id], Except.error ("no date for " ++ id))

/-- One step of the display-name loop in Sync: a tag whose key is "Name"
overwrites the name accumulated so far. -/
def nameStep (n : String) (t : Tag) : String :=
  if t.key == "Name" then t.value else n

/-- The display-name computation in Sync: name starts as the instance id
and each tag whose key is "Name" overwrites it, scanning tags in order. -/
def nameOf (inst : Instance) : String :=
  inst.tags.foldl nameStep inst.instanceId

/-- Decimal digit value of a character, none if not a digit. -/
def charDigit (c : Char) : Option Nat :=
  if '0' ≤ c ∧ c ≤ '9' then some (c.toNat - '0'.toNat) else none

/-- Two fixed decimal digits. -/
def num2 (a b : Char) : Option Nat := do
  let x ← charDigit a
  let y ← charDigit b
  pure (10 * x + y)

/-- Three fixed decimal digits. -/
def num3 (a b c : Char) : Option Nat := do
  let x ← charDigit a
  let y ← charDigit b
  let z ← charDigit c
  pure (100 * x + 10 * y + z)

/-- Four fixed decimal digits. -/
def num4 (a b c d : Char) : Option Nat := do
  let x ← charDigit a
  let y ← charDigit b
  let z ← charDigit c
  let w ← charDigit d
  pure (1000 * x + 100 * y + 10 * z + w)

/-- Gregorian leap year. -/
def isLeap (y : Nat) : Bool :=
  (y % 4 == 0 && y % 100 != 0) || y % 400 == 0

/-- Days in a month of a given year. -/
def daysInMonth (y m : Nat) : Nat :=
  if m == 2 then (if isLeap y then 29 else 28)
  else if m == 4 || m == 6 || m == 9 || m == 11 then 30
  else 31

/-- Days from the civil epoch 1970-01-01 to year/month/day
(Howard Hinnant's algorithm, floor division throughout). -/
def daysFromCivil (y m d : Int) : Int :=
  let y2 := if m ≤ 2 then y - 1 else y
  let era := Int.fdiv y2 400
  let yoe := y2 - era * 400
  let mp := Int.emod (m + 9) 12
  let doy := Int.fdiv (153 * mp + 2) 5 + d - 1
  let doe := yoe * 365 + Int.fdiv yoe 4 - Int.fdiv yoe 100 + doy
  era * 146097 + doe - 719468

/-- time.Parse with layout 2006-01-02T15:04:05.000Z: the input must be
exactly four year digits, two month digits, two day digits, two hour,
minute and second digits and three fractional digits with the literal
separators, and every field must be in range.  Returns the instant as
milliseconds since the Unix epoch, or none on any parse failure. -/
def parseTimestamp (s : String) : Option Int :=
  match s.toList with
  | [y1, y2, y3, y4, '-', m1, m2, '-', d1, d2, 'T',
     h1, h2, ':', n1, n2, ':', e1, e2, '.', f1, f2, f3, 'Z'] => do
    let y ← num4 y1 y2 y3 y4
    let mo ← num2 m1 m2
    let da ← num2 d1 d2
    let hr ← num2 h1 h2
    let mi ← num2 n1 n2
    let se ← num2 e1 e2
    let fr ← num3 f1 f2 f3
    if 1 ≤ mo ∧ mo ≤ 12 ∧ 1 ≤ da ∧ da ≤ daysInMonth y mo ∧
        hr ≤ 23 ∧ mi ≤ 59 ∧ se ≤ 59 then
      some (daysFromCivil (Int.ofNat y) (Int.ofNat mo) (Int.ofNat da) * 86400000
        + Int.ofNat hr * 3600000 + Int.ofNat mi * 60000
        + Int.ofNat se * 1000 + Int.ofNat fr)
    else none
  | _ => none

/-- The age computation in Sync: diff = now - creation, in milliseconds;
Go computes int(diff.Hours() / 24), i.e. truncation toward zero of
diff / (24 hours).  Int.div is Lean's truncating division. -/
def ageDays (diff : Int) : Int :=
  Int.tdiv diff 86400000

/-- The spec's age formula, written as its words say: floor of
(diff in hours / 24), with exact rational arithmetic (diff in ms). -/
def specAgeDays (diff : Int) : Int :=
  Int.floor ((diff : ℚ) / 3600000 / 24)

/-- One printed record of Sync: fmt.Printf("%s %s %s %s %s", acct, id,
name, ami, create) where create has been replaced by "<age> days". -/
structure OutputLine where
  acct : String
  instanceId : String
  name : String
  ami : String
  age : String
  deriving DecidableEq, Repr

/-- The body of Sync's instance loop, over the flattened reservation list:
resolve the name from tags, resolve the image creation date through the
cache, parse it, compute the age and emit a line; any failure aborts with
an error and no line for this or any later instance.  Returns the final
cache, the trace of provider image queries, the emitted lines in order,
and ok or the first error. -/
def processInstances (svc : EC2) (acct : String) (now : Int) :
    Cache → List Instance →
    Cache × List String × List OutputLine × Except String Unit
  | cache, [] => (cache, [], [], Except.ok ())
  | cache, inst :: rest =>
    let id := inst.instanceId
    let name := nameOf inst
    let ami := inst.imageId
    match amiCreation svc cache ami with
    | (cache₁, calls₁, Except.error e) =>
      (cache₁, calls₁, [],
        Except.error ("failed to get creation date of " ++ ami ++ ": " ++ e))
    | (cache₁, calls₁, Except.ok create) =>
      match parseTimestamp create with
      | none =>
        (cache₁, calls₁, [],
          Except.error ("failed to parse time string " ++ create))
      | some t =>
        let line : OutputLine :=
          { acct := acct, instanceId := id, name := name, ami := ami,
            age := toString (ageDays (now - t)) ++ " days" }
        match processInstances svc acct now cache₁ rest with
        | (cache₂, calls₂, lines₂, res) =>
          (cache₂, calls₁ ++ calls₂, line :: lines₂, res)

/-- Sync from main.go: query DescribeInstances with the
instance-state-name filter set to running and pending, fail on a listing
error, otherwise process every instance of every reservation in order. -/
def Sync (svc : EC2) (acct : String) (now : Int) (cache : Cache) :
    Cache × List String × List OutputLine × Except String Unit :=
  match svc.describeInstances ["running", "pending"] with
  | Except.error e =>
    (cache, [], [], Except.error ("DescribeInstances failed: " ++ e))
  | Except.ok reservations =>
    processInstances svc acct now cache reservations.flatten

/-- strings.HasPrefix(role, "#"): the comment test of the role loop. -/
def isCommentLine (s : String) : Bool :=
  match s.toList with
  | c :: _ => c == '#'
  | [] => false

/-- Split a character list at every colon (strings.Split semantics for a
one-character separator: splitting the empty string yields one empty
field). -/
def splitChars : List Char → List (List Char)
  | [] => [[]]
  | c :: cs =>
    let r := splitChars cs
    if c == ':' then [] :: r
    else
      match r with
      | [] => [[c]]
      | g :: gs => (c :: g) :: gs

/-- strings.Split(role, ":"). -/
def splitColon (s : String) : List String :=
  (splitChars s.toList).map (fun l => String.mk l)

/-- One line printed in role-list mode: either an instance record from
Sync, or the "Error for role" diagnostic printed when a role's sync
fails. -/
inductive Event where
  | line : OutputLine → Event
  | roleError : String → String → Event
  deriving DecidableEq, Repr

/-- Result of a role-list run: final cache, trace of provider image
queries, printed output in order, and the (role, account) pairs with
which Sync was invoked, in order. -/
structure RunResult where
  cache : Cache
  calls : List String
  output : List Event
  invs : List (String × String)
  deriving DecidableEq, Repr

/-- The role-file loop of main: skip lines starting with "#"; for any
other line build a client for the role, take field 4 of the colon-split
line as the account, run Sync, print its lines, print a diagnostic and
continue on a sync error.  Indexing field 4 of a line with fewer than
five fields is a runtime panic in Go; the whole run is modelled as none
in that case. -/
def processRoles (mkSvc : String → EC2) (now : Int) :
    Cache → List String → Option RunResult
  | cache, [] => some { cache := cache, calls := [], output := [], invs := [] }
  | cache, role :: rest =>
    if isCommentLine role then processRoles mkSvc now cache rest
    else
      match (splitColon role)[4]? with
      | none => none
      | some acct =>
        match Sync (mkSvc role) acct now cache with
        | (cache₁, calls₁, lines₁, res) =>
          let ev : List Event :=
            match res with
            | Except.ok _ => lines₁.map Event.line
            | Except.error e => lines₁.map Event.line ++ [Event.roleError role e]
          match processRoles mkSvc now cache₁ rest with
          | none => none
          | some r =>
            some { cache := r.cache, calls := calls₁ ++ r.calls,
                   output := ev ++ r.output, invs := (role, acct) :: r.invs }

/-! Concrete fixtures used by witnesses and counterexamples. -/

/-- A creation date used throughout: 2024-01-01T00:00:00.000Z. -/
def dateA : String := "2024-01-01T00:00:00.000Z"

/-- A client whose image lookup always succeeds with dateA. -/
def svcHit : EC2 :=
  { describeInstances := fun _ => Except.ok []
    describeImages := fun _ => Except.ok [{ creationDate := dateA }] }

/-- A client whose image lookup always fails at the transport level. -/
def svcFail : EC2 :=
  { describeInstances := fun _ => Except.ok []
    describeImages := fun _ => Except.error "boom" }

/-- A creation date twelve hours into 2024-01-01. -/
def lateDate : String := "2024-01-01T12:00:00.000Z"

/-- A running instance booted from ami-2. -/
def lateInstance : Instance :=
  { instanceId := "i-2", tags := [], imageId := "ami-2", state := "running" }

/-- A client returning lateInstance, whose image lookup yields lateDate. -/
def svcLate : EC2 :=
  { describeInstances := fun _ => Except.ok [[lateInstance]]
    describeImages := fun _ => Except.ok [{ creationDate := lateDate }] }

/-- An instance whose lifecycle state is "stopped". -/
def stoppedInstance : Instance :=
  { instanceId := "i-1", tags := [], imageId := "ami-1", state := "stopped" }

/-- A client whose instance listing returns the stopped instance no matter
what filter it is sent, and whose image lookup yields dateA. -/
def svcStopped : EC2 :=
  { describeInstances := fun _ => Except.ok [[stoppedInstance]]
    describeImages := fun _ => Except.ok [{ creationDate := dateA }] }

/-- A role line whose account field is "111". -/
def roleOne : String := "a:b:c::111:r"

/-- A role line whose account field is "222". -/
def roleTwo : String := "a:b:c::222:r"

/-- A running instance booted from ami-1. -/
def goodInstance : Instance :=
  { instanceId := "i-9", tags := [], imageId := "ami-1", state := "running" }

/-- A client for which every instance listing succeeds with one running
instance booted from ami-1, and image lookups yield dateA. -/
def svcGood : EC2 :=
  { describeInstances := fun _ => Except.ok [[goodInstance]]
    describeImages := fun _ => Except.ok [{ creationDate := dateA }] }

/-- A client whose instance listing always fails. -/
def svcListFail : EC2 :=
  { describeInstances := fun _ => Except.error "denied"
    describeImages := fun _ => Except.ok [] }

/-- Role-to-client assignment under which roleOne's sync fails (listing
denied) and every other role's sync succeeds. -/
def mkSvcIso : String → EC2 :=
  fun r => if r = roleOne then svcListFail else svcGood

/-- An instance booted from an image the provider cannot describe. -/
def instBad : Instance :=
  { instanceId := "i-b", tags := [], imageId := "ami-bad", state := "running" }

/-- A client that can describe ami-1 but fails on every other image. -/
def svcMix : EC2 :=
  { describeInstances := fun _ => Except.ok []
    describeImages := fun id =>
      if id = "ami-1" then Except.ok [{ creationDate := dateA }]
      else Except.error "gone" }

/-- Numeric indicator: 1 when the image id is cached, else 0. -/
def cacheInd (c : Cache) (id : String) : Nat :=
  if (c.lookup id).isSome = true then 1 else 0

/-- A client that lists one running ami-1 instance but cannot describe
any image. -/
def svcDown : EC2 :=
  { describeInstances := fun _ => Except.ok [[goodInstance]]
    describeImages := fun _ => Except.error "down" }

/-- Role-to-client assignment under which roleOne's image lookups fail at
the transport level and every other role's succeed. -/
def mkSvcRetry : String → EC2 :=
  fun r => if r = roleOne then svcDown else svcGood

/-- The run of two successful roles sharing one image. -/
def runGood : RunResult :=
  { cache := [("ami-1", dateA)]
    calls := ["ami-1"]
    output := [Event.line (OutputLine.mk "111" "i-9" "i-9" "ami-1" "10 days"),
               Event.line (OutputLine.mk "222" "i-9" "i-9" "ami-1" "10 days")]
    invs := [(roleOne, "111"), (roleTwo, "222")] }

/-! Theorems. -/

/-- Characterisation of the display-name fold: the result is the value of
the last tag whose key is "Name", or the initial value if there is none. -/
theorem foldl_name_eq (tags : List Tag) : ∀ init : String,
    tags.foldl nameStep init
    = (((tags.filter (fun t => t.key == "Name")).getLast?).map Tag.value).getD
        init := by
  induction tags with
  | nil => intro init; simp
  | cons t rest ih =>
    intro init
    rw [List.foldl_cons, ih]
    simp only [List.filter_cons]
    cases ht : t.key == "Name" with
    | true =>
      simp only [nameStep, ht, if_true]
      rcases hf : rest.filter (fun t => t.key == "Name") with _ | ⟨g, gs⟩
      · rw [hf]
        simp
      · rw [hf, List.getLast?_cons_cons]
        rcases hg : (g :: gs).getLast? with _ | u
        · exact absurd hg (by simp)
        · simp [hg]
    | false =>
      simp only [nameStep, ht, if_false]
      rfl

/-- C8: the display name is initialised to the instance identifier and
overwritten, scanning the tag list in order, by the value of each tag
whose key equals "Name"; so with no "Name" tag the name is the instance
identifier, and with several "Name" tags the last one wins. -/
theorem claim8_display_name (inst : Instance) :
    nameOf inst
    = (((inst.tags.filter (fun t => t.key == "Name")).getLast?).map
        Tag.value).getD inst.instanceId := by
  unfold nameOf
  exact foldl_name_eq inst.tags inst.instanceId

/-- C4: an image id already present in the cache resolves to the cached
value with no provider call; consequently a second resolution after a
successful one makes no provider call and returns the same timestamp. -/
theorem claim4_cache_hit_idempotent (svc : EC2) (c : Cache) (id v : String) :
    (c.lookup id = some v → amiCreation svc c id = (c, [], Except.ok v))
    ∧ (∀ c₁ calls ts, amiCreation svc c id = (c₁, calls, Except.ok ts) →
        amiCreation svc c₁ id = (c₁, [], Except.ok ts)) := by
  constructor
  · intro h
    simp [amiCreation, h]
  · intro c₁ calls ts h
    cases hl : c.lookup id with
    | some cached =>
      have h' : amiCreation svc c id = (c, [], Except.ok cached) := by
        simp [amiCreation, hl]
      rw [h'] at h
      simp only [Prod.mk.injEq, Except.ok.injEq] at h
      obtain ⟨rfl, -, rfl⟩ := h
      exact h'
    | none =>
      cases hd : svc.describeImages id with
      | error e =>
        have h' : amiCreation svc c id
            = (c, [id], Except.error ("error getting image info: " ++ e)) := by
          simp [amiCreation, hl, hd]
        rw [h'] at h
        simp at h
      | ok images =>
        cases images with
        | nil =>
          have h' : amiCreation svc c id
              = (c, [id], Except.error ("no date for " ++ id)) := by
            simp [amiCreation, hl, hd]
          rw [h'] at h
          simp at h
        | cons img tail =>
          have h' : amiCreation svc c id
              = ((id, img.creationDate) :: c, [id],
                 Except.ok img.creationDate) := by
            simp [amiCreation, hl, hd]
          rw [h'] at h
          simp only [Prod.mk.injEq, Except.ok.injEq] at h
          obtain ⟨rfl, -, rfl⟩ := h
          simp [amiCreation, List.lookup_cons]

/-- Witness for C4 at a concrete cached entry. -/
theorem claim4_witness :
    amiCreation svcHit [("ami-1", dateA)] "ami-1"
      = ([("ami-1", dateA)], [], Except.ok dateA) :=
  (claim4_cache_hit_idempotent svcHit [("ami-1", dateA)] "ami-1" dateA).1 rfl

/-- C5: amiCreation mutates the cache only on a successful non-empty
lookup: whenever it returns an error (transport failure, or a successful
query with no matching image, which fails naming the identifier), the
cache is returned unchanged. -/
theorem claim5_no_mutation_on_failure (svc : EC2) (c : Cache) (id : String) :
    (∀ e, (amiCreation svc c id).2.2 = Except.error e →
      (amiCreation svc c id).1 = c)
    ∧ (c.lookup id = none → svc.describeImages id = Except.ok [] →
        amiCreation svc c id = (c, [id], Except.error ("no date for " ++ id)))
    := by
  constructor
  · intro e h
    cases hl : c.lookup id with
    | some cached => simp [amiCreation, hl]
    | none =>
      cases hd : svc.describeImages id with
      | error e' => simp [amiCreation, hl, hd]
      | ok images =>
        cases images with
        | nil => simp [amiCreation, hl, hd]
        | cons img tail =>
          have h' : (amiCreation svc c id).2.2 = Except.ok img.creationDate := by
            simp [amiCreation, hl, hd]
          rw [h'] at h
          simp at h
  · intro hl hd
    simp [amiCreation, hl, hd]

/-- Witness for C5: a transport failure leaves the cache unchanged. -/
theorem claim5_witness :
    (amiCreation svcFail [] "ami-1").1 = [] :=
  (claim5_no_mutation_on_failure svcFail [] "ami-1").1
    "error getting image info: boom" rfl

/-- The spec's floor formula reduces to Euclidean division by the number
of milliseconds in a day. -/
theorem specAgeDays_eq (d : Int) : specAgeDays d = d / 86400000 := by
  unfold specAgeDays
  have h1 : (d : ℚ) / 3600000 / 24 = (d : ℚ) / ((86400000 : ℕ) : ℚ) := by
    rw [div_div]
    norm_num
  rw [h1, Rat.floor_intCast_div_natCast]
  norm_num

/-- C3 (amended): the reported age is the truncation toward zero of
(now - creation) / 24h; whenever the parsed creation timestamp is not
later than now, this equals the spec's floor formula.  (For a creation
timestamp in the future the code truncates toward zero while the claim's
floor rounds down, so they differ there; see the counterexample.) -/
theorem claim3_age_floor (now t : Int) (h : t ≤ now) :
    ageDays (now - t) = specAgeDays (now - t) := by
  rw [specAgeDays_eq]
  unfold ageDays
  exact Int.tdiv_eq_ediv (by omega) (by norm_num)

/-- Witness for C3: the claim's concrete test.  now = 2024-01-11Z and
creation = 2024-01-01Z parse to the stated epoch milliseconds, the code
age agrees with the spec's floor formula there, and the rendered age is
exactly "10 days". -/
theorem claim3_age_floor_witness :
    (1704067200000 : Int) ≤ 1704931200000
    ∧ ageDays (1704931200000 - 1704067200000)
        = specAgeDays (1704931200000 - 1704067200000)
    ∧ parseTimestamp dateA = some 1704067200000
    ∧ parseTimestamp "2024-01-11T00:00:00.000Z" = some 1704931200000
    ∧ toString (ageDays (1704931200000 - 1704067200000)) ++ " days"
        = "10 days" :=
  ⟨by norm_num,
   claim3_age_floor 1704931200000 1704067200000 (by norm_num),
   by decide, by decide, by decide⟩

/-- Counterexample to C3 as stated: with now = 2024-01-01T00:00:00Z and a
creation timestamp twelve hours later, the code reports "0 days"
(truncation toward zero), while the claim's floor formula gives -1. -/
theorem claim3_counterexample :
    (Sync svcLate "123" 1704067200000 []).2.2.1
      = [{ acct := "123", instanceId := "i-2", name := "i-2", ami := "ami-2",
           age := "0 days" }]
    ∧ specAgeDays (1704067200000 - 1704110400000) = -1
    ∧ ageDays (1704067200000 - 1704110400000)
        ≠ specAgeDays (1704067200000 - 1704110400000) := by
  refine ⟨by decide, ?_, ?_⟩
  · rw [specAgeDays_eq]
    decide
  · rw [specAgeDays_eq]
    decide

/-- C1 (amended): Sync sends the provider a filter naming only the
running and pending states, but it performs no client-side state check:
the instance loop's result is entirely independent of the lifecycle
states carried by the returned instances, so every returned instance
produces an output line whatever its state. -/
theorem claim1_state_never_read (svc : EC2) (acct : String) (now : Int)
    (cache : Cache) (l : List Instance) (f : Instance → String) :
    processInstances svc acct now cache
      (l.map (fun i => { i with state := f i }))
    = processInstances svc acct now cache l := by
  induction l generalizing cache with
  | nil => rfl
  | cons inst rest ih =>
    have hproj : ({ inst with state := f inst } : Instance).imageId
        = inst.imageId := rfl
    have hname : nameOf { inst with state := f inst } = nameOf inst := rfl
    have hid : ({ inst with state := f inst } : Instance).instanceId
        = inst.instanceId := rfl
    simp only [List.map_cons, processInstances, hproj, hname, hid]
    rcases hA : amiCreation svc cache inst.imageId with ⟨c₁, k₁, res⟩
    cases res with
    | error e => simp [hA]
    | ok create =>
      cases hP : parseTimestamp create with
      | none => simp [hA, hP]
      | some t => simp [hA, hP, ih]

/-- Counterexample to C1 as stated: when the provider's response contains
an instance in state "stopped", Sync still emits an output line for it —
there is no client-side state filtering. -/
theorem claim1_counterexample :
    stoppedInstance.state = "stopped"
    ∧ (Sync svcStopped "123" 1704931200000 []).2.2.1
        = [{ acct := "123", instanceId := "i-1", name := "i-1",
             ami := "ami-1", age := "10 days" }] :=
  ⟨rfl, by decide⟩

/-- C10: a non-comment role-file line with fewer than five colon-separated
fields (its field 4 does not exist) makes the role loop index past the
end of the split: the run is not total and returns no value at all. -/
theorem claim10_short_line_not_total (role : String)
    (hc : isCommentLine role = false)
    (ha : (splitColon role)[4]? = none)
    (mkSvc : String → EC2) (now : Int) (cache : Cache) (rest : List String) :
    processRoles mkSvc now cache (role :: rest) = none := by
  simp [processRoles, hc, ha]

/-- Witness for C10 at the blank line: it is not a comment (only
"#"-prefixed lines are skipped), its split has no field 4, and the whole
run returns no value. -/
theorem claim10_witness :
    isCommentLine "" = false
    ∧ (splitColon "")[4]? = none
    ∧ processRoles (fun _ => svcHit) 0 [] [""] = none :=
  ⟨rfl, by decide,
   claim10_short_line_not_total "" rfl (by decide) (fun _ => svcHit) 0 [] []⟩

/-- C9: for a non-comment role line whose colon-split has a field 4, the
account passed to Sync for that role is exactly that field, verbatim:
the first invocation recorded for the line is (role, field 4). -/
theorem claim9_role_account (mkSvc : String → EC2) (now : Int)
    (cache : Cache) (role : String) (rest : List String) (acct : String)
    (hc : isCommentLine role = false)
    (ha : (splitColon role)[4]? = some acct) :
    ∀ r, processRoles mkSvc now cache (role :: rest) = some r →
      r.invs.head? = some (role, acct) := by
  intro r h
  simp only [processRoles, hc, Bool.false_eq_true, if_false, ha] at h
  rcases hS : Sync (mkSvc role) acct now cache with ⟨c₁, k₁, lines₁, res⟩
  rw [hS] at h
  cases hR : processRoles mkSvc now c₁ rest with
  | none =>
    rw [hR] at h
    cases res <;> simp at h
  | some r' =>
    rw [hR] at h
    cases res <;> simp only [Option.some.injEq] at h <;>
      (rw [← h]; rfl)

/-- Witness for C9 at the claim's concrete role string: the derived
account is exactly "123456789091". -/
theorem claim9_witness :
    (splitColon "arn:aws:iam::123456789091:role/account-name-ABCDFFDFDKLJ")[4]?
      = some "123456789091"
    ∧ ∀ r, processRoles (fun _ => svcGood) 1704931200000 []
        ["arn:aws:iam::123456789091:role/account-name-ABCDFFDFDKLJ"] = some r →
        r.invs.head?
          = some ("arn:aws:iam::123456789091:role/account-name-ABCDFFDFDKLJ",
                  "123456789091") :=
  ⟨by decide,
   claim9_role_account (fun _ => svcGood) 1704931200000 []
     "arn:aws:iam::123456789091:role/account-name-ABCDFFDFDKLJ" []
     "123456789091" rfl (by decide)⟩

/-- C7: in role-list mode a sync failure for one role is reported as a
diagnostic in the output and processing continues with the remaining
roles: the run on (roleA :: rest) is exactly the run on rest (from the
post-roleA cache) with roleA's partial lines, its error diagnostic and
its invocation prepended, so every later role is still attempted. -/
theorem claim7_per_role_isolation (mkSvc : String → EC2) (now : Int)
    (cache : Cache) (roleA : String) (rest : List String) (acctA : String)
    (c₁ : Cache) (k₁ : List String) (lines₁ : List OutputLine) (e : String)
    (hc : isCommentLine roleA = false)
    (ha : (splitColon roleA)[4]? = some acctA)
    (hs : Sync (mkSvc roleA) acctA now cache
      = (c₁, k₁, lines₁, Except.error e)) :
    processRoles mkSvc now cache (roleA :: rest)
      = (processRoles mkSvc now c₁ rest).map (fun r =>
          { cache := r.cache, calls := k₁ ++ r.calls,
            output := (lines₁.map Event.line ++ [Event.roleError roleA e])
              ++ r.output,
            invs := (roleA, acctA) :: r.invs }) := by
  simp only [processRoles, hc, Bool.false_eq_true, if_false, ha, hs]
  cases processRoles mkSvc now c₁ rest <;> rfl

/-- Witness for C7: roleOne's sync fails with a listing error, and
roleTwo, listed after it, is still attempted and produces its output. -/
theorem claim7_witness :
    processRoles mkSvcIso 1704931200000 [] [roleOne, roleTwo]
      = some { cache := [("ami-1", dateA)], calls := ["ami-1"],
               output :=
                 [Event.roleError roleOne "DescribeInstances failed: denied",
                  Event.line (OutputLine.mk "222" "i-9" "i-9" "ami-1"
                    "10 days")],
               invs := [(roleOne, "111"), (roleTwo, "222")] } := by
  rw [claim7_per_role_isolation mkSvcIso 1704931200000 [] roleOne [roleTwo]
    "111" [] [] [] "DescribeInstances failed: denied" rfl (by decide) rfl]
  decide

/-- The instance loop splits over an append: if the prefix ends in an
error, it is the whole result; otherwise the suffix continues from the
prefix's cache and the traces and lines concatenate. -/
theorem processInstances_append (svc : EC2) (acct : String) (now : Int)
    (l₁ l₂ : List Instance) : ∀ cache : Cache,
    processInstances svc acct now cache (l₁ ++ l₂)
    = match processInstances svc acct now cache l₁ with
      | (c₁, k₁, n₁, Except.ok _) =>
        match processInstances svc acct now c₁ l₂ with
        | (c₂, k₂, n₂, r) => (c₂, k₁ ++ k₂, n₁ ++ n₂, r)
      | (c₁, k₁, n₁, Except.error e) => (c₁, k₁, n₁, Except.error e) := by
  induction l₁ with
  | nil =>
    intro cache
    rcases h : processInstances svc acct now cache l₂ with ⟨c₂, k₂, n₂, r⟩
    simp [processInstances, h]
  | cons inst rest ih =>
    intro cache
    simp only [List.cons_append, processInstances]
    rcases hA : amiCreation svc cache inst.imageId with ⟨c₁, k₁, res⟩
    cases res with
    | error e => rfl
    | ok create =>
      cases hP : parseTimestamp create with
      | none => simp only [hP]
      | some t =>
        simp only [List.append_eq, hP, ih c₁]
        rcases hR : processInstances svc acct now c₁ rest with ⟨cr, kr, nr, rr⟩
        cases rr with
        | error e => rfl
        | ok u =>
          rcases processInstances svc acct now cr l₂ with ⟨cs, ks, ns, rs⟩
          simp

/-- A successful instance loop emits exactly one line per instance. -/
theorem processInstances_ok_length (svc : EC2) (acct : String) (now : Int)
    (l : List Instance) : ∀ cache : Cache,
    (processInstances svc acct now cache l).2.2.2 = Except.ok () →
    (processInstances svc acct now cache l).2.2.1.length = l.length := by
  induction l with
  | nil => intro cache _; rfl
  | cons inst rest ih =>
    intro cache h
    simp only [processInstances] at h ⊢
    rcases hA : amiCreation svc cache inst.imageId with ⟨c₁, k₁, res⟩
    rw [hA] at h
    cases res with
    | error e => simp at h
    | ok create =>
      cases hP : parseTimestamp create with
      | none => simp [hP] at h
      | some t =>
        simp only [hP] at h ⊢
        simp only [List.length_cons]
        rw [ih c₁ h]

/-- C6: within one account's sync, if resolving the image creation
timestamp for some instance fails — lookup error or not-found (an
amiCreation error), or a timestamp parse failure — the loop stops with an
error (naming the offending image in the resolution cases, or the
offending timestamp string in the parse case) and the output contains
exactly the lines of the instances before it: none for that instance or
for any instance after it. -/
theorem claim6_fatal_image_failure (svc : EC2) (acct : String) (now : Int)
    (cache : Cache) (l₁ : List Instance) (inst : Instance)
    (l₂ : List Instance) (c₁ : Cache) (k₁ : List String)
    (n₁ : List OutputLine)
    (h₁ : processInstances svc acct now cache l₁
      = (c₁, k₁, n₁, Except.ok ())) :
    (∀ e₀ cc kk,
      amiCreation svc c₁ inst.imageId = (cc, kk, Except.error e₀) →
      (processInstances svc acct now cache (l₁ ++ inst :: l₂)).2.2
        = (n₁, Except.error ("failed to get creation date of "
            ++ inst.imageId ++ ": " ++ e₀)))
    ∧ (∀ create cc kk,
        amiCreation svc c₁ inst.imageId = (cc, kk, Except.ok create) →
        parseTimestamp create = none →
        (processInstances svc acct now cache (l₁ ++ inst :: l₂)).2.2
          = (n₁, Except.error ("failed to parse time string " ++ create)))
    ∧ n₁.length = l₁.length := by
  refine ⟨?_, ?_, ?_⟩
  · intro e₀ cc kk hA
    rw [processInstances_append svc acct now l₁ (inst :: l₂) cache, h₁]
    simp only [processInstances, hA]
    simp
  · intro create cc kk hA hP
    rw [processInstances_append svc acct now l₁ (inst :: l₂) cache, h₁]
    simp only [processInstances, hA, hP]
    simp
  · have hl := processInstances_ok_length svc acct now l₁ cache
      (by rw [h₁])
    rw [h₁] at hl
    exact hl

/-- Witness for C6: with a good instance, then one whose image lookup
fails, then another good one, the output has exactly the first line and
the error names the offending image. -/
theorem claim6_witness :
    (processInstances svcMix "a" 1704931200000 []
        ([goodInstance] ++ instBad :: [goodInstance])).2.2
      = ([OutputLine.mk "a" "i-9" "i-9" "ami-1" "10 days"],
         Except.error
           "failed to get creation date of ami-bad: error getting image info: gone") :=
  (claim6_fatal_image_failure svcMix "a" 1704931200000 [] [goodInstance]
      instBad [goodInstance] [("ami-1", dateA)] ["ami-1"]
      [OutputLine.mk "a" "i-9" "i-9" "ami-1" "10 days"] rfl).1
    "error getting image info: gone" [("ami-1", dateA)] ["ami-bad"] rfl

/-- A cache hit makes no provider call and leaves the cache unchanged. -/
theorem amiCreation_hit_calls (svc : EC2) (c : Cache) (a : String)
    (h : (c.lookup a).isSome = true) :
    (amiCreation svc c a).2.1 = [] ∧ (amiCreation svc c a).1 = c := by
  rcases ho : c.lookup a with _ | v
  · rw [ho] at h; simp at h
  · constructor <;> simp [amiCreation, ho]

/-- amiCreation queries the provider only for its own argument: the call
trace is empty or the singleton of the id it was asked about. -/
theorem amiCreation_calls_sub (svc : EC2) (c : Cache) (a : String) :
    (amiCreation svc c a).2.1 = [] ∨ (amiCreation svc c a).2.1 = [a] := by
  rcases ho : c.lookup a with _ | v
  · right
    cases hd : svc.describeImages a with
    | error e => simp [amiCreation, ho, hd]
    | ok images => cases images <;> simp [amiCreation, ho, hd]
  · left
    simp [amiCreation, ho]

/-- amiCreation never removes a cache entry: any id present before is
present after. -/
theorem amiCreation_mono (svc : EC2) (c : Cache) (a x : String)
    (h : (c.lookup x).isSome = true) :
    (((amiCreation svc c a).1).lookup x).isSome = true := by
  rcases ho : c.lookup a with _ | v
  · cases hd : svc.describeImages a with
    | error e => simp only [amiCreation, ho, hd]; exact h
    | ok images =>
      cases images with
      | nil => simp only [amiCreation, ho, hd]; exact h
      | cons img tail =>
        simp only [amiCreation, ho, hd]
        rw [List.lookup_cons]
        cases hx : x == a <;> simp [h]
  · simp only [amiCreation, ho]; exact h

/-- When the provider answers for this id with at least one image,
amiCreation on a cache miss stores the first image's date. -/
theorem amiCreation_good (svc : EC2) (c : Cache) (a : String)
    (img : Image) (tail : List Image)
    (hd : svc.describeImages a = Except.ok (img :: tail))
    (ho : c.lookup a = none) :
    amiCreation svc c a
      = ((a, img.creationDate) :: c, [a], Except.ok img.creationDate) := by
  simp [amiCreation, ho, hd]

/-- After amiCreation on a cache miss for an id the provider answers
with a non-empty image list, the id is cached. -/
theorem amiCreation_good_caches (svc : EC2) (c : Cache) (a : String)
    (img : Image) (tail : List Image)
    (hd : svc.describeImages a = Except.ok (img :: tail)) :
    (((amiCreation svc c a).1).lookup a).isSome = true := by
  rcases ho : c.lookup a with _ | v
  · rw [amiCreation_good svc c a img tail hd ho]
    rw [List.lookup_cons]
    simp
  · simp [amiCreation, ho]

/-- amiCreation either leaves the cache alone or conses an entry for its
own argument onto it. -/
theorem amiCreation_cache_sub (svc : EC2) (c : Cache) (a : String) :
    (amiCreation svc c a).1 = c
    ∨ ∃ d, (amiCreation svc c a).1 = (a, d) :: c := by
  rcases ho : c.lookup a with _ | v
  · cases hd : svc.describeImages a with
    | error e => left; simp [amiCreation, ho, hd]
    | ok images =>
      cases images with
      | nil => left; simp [amiCreation, ho, hd]
      | cons img tail =>
        right
        exact ⟨img.creationDate, by simp [amiCreation, ho, hd]⟩
  · left; simp [amiCreation, ho]

/-- Accounting for one amiCreation step, tracking a fixed image id whose
provider lookups always succeed with at least one image: the number of
calls to id in the step plus the cached-before indicator equals the
cached-after indicator, unless id is untouched (no calls and absent from
the cache on both sides). -/
theorem amiCreation_step_inv (svc : EC2) (c : Cache) (a id : String)
    (img : Image) (tail : List Image)
    (hgood : svc.describeImages id = Except.ok (img :: tail))
    (c₁ : Cache) (k₁ : List String) (res : Except String String)
    (hA : amiCreation svc c a = (c₁, k₁, res)) :
    (k₁.count id + (if (c.lookup id).isSome = true then 1 else 0)
      = (if (c₁.lookup id).isSome = true then 1 else 0))
    ∨ (k₁.count id = 0 ∧ (c.lookup id).isSome = false
        ∧ (c₁.lookup id).isSome = false) := by
  by_cases he : a = id
  · subst he
    rcases ho : c.lookup a with _ | v
    · rw [amiCreation_good svc c a img tail hgood ho] at hA
      simp only [Prod.mk.injEq] at hA
      obtain ⟨h1, h2, -⟩ := hA
      subst h1
      subst h2
      left
      simp [ho, List.lookup_cons]
    · have hh := amiCreation_hit_calls svc c a (by rw [ho]; rfl)
      rw [hA] at hh
      simp only at hh
      obtain ⟨hk, hc⟩ := hh
      subst hk
      subst hc
      left
      simp [ho]
  · have hne : (id == a) = false := by
      simp only [beq_eq_false_iff_ne, ne_eq]
      exact fun h => he h.symm
    have hcnt : k₁.count id = 0 := by
      have h0 := amiCreation_calls_sub svc c a
      rw [hA] at h0
      simp only at h0
      rcases h0 with h0 | h0 <;> subst h0
      · simp
      · simp [List.count_singleton, he]
    have hmem : (c₁.lookup id).isSome = (c.lookup id).isSome := by
      have h0 := amiCreation_cache_sub svc c a
      rw [hA] at h0
      simp only at h0
      rcases h0 with h0 | ⟨d, h0⟩ <;> subst h0
      · rfl
      · rw [List.lookup_cons, hne]
    cases hb : (c.lookup id).isSome with
    | true => left; simp [hcnt, hmem, hb]
    | false => right; exact ⟨hcnt, rfl, by rw [hmem, hb]⟩

/-- The indicator is at most one. -/
theorem cacheInd_le_one (c : Cache) (id : String) : cacheInd c id ≤ 1 := by
  unfold cacheInd
  split <;> omega

/-- The indicator is positive exactly when the id is cached. -/
theorem cacheInd_pos_iff (c : Cache) (id : String) :
    1 ≤ cacheInd c id ↔ (c.lookup id).isSome = true := by
  unfold cacheInd
  split <;> simp_all

/-- Numeric form of the amiCreation step accounting. -/
theorem amiCreation_step_num (svc : EC2) (c : Cache) (a id : String)
    (img : Image) (tail : List Image)
    (hgood : svc.describeImages id = Except.ok (img :: tail))
    (c₁ : Cache) (k₁ : List String) (res : Except String String)
    (hA : amiCreation svc c a = (c₁, k₁, res)) :
    k₁.count id + cacheInd c id = cacheInd c₁ id
    ∨ (k₁.count id = 0 ∧ cacheInd c id = 0 ∧ cacheInd c₁ id = 0) := by
  rcases amiCreation_step_inv svc c a id img tail hgood c₁ k₁ res hA with
    h | ⟨h1, h2, h3⟩
  · left; exact h
  · right
    exact ⟨h1, by simp [cacheInd, h2], by simp [cacheInd, h3]⟩

/-- Call accounting for the whole instance loop, for a fixed image id
whose provider lookups always succeed with at least one image: the loop
queries id at most once (never when it is already cached), the cache only
gains id, and if id was queried it ends up cached. -/
theorem processInstances_calls_inv (svc : EC2) (acct : String) (now : Int)
    (id : String) (img : Image) (tail : List Image)
    (hgood : svc.describeImages id = Except.ok (img :: tail)) :
    ∀ (l : List Instance) (c c' : Cache) (k : List String)
      (n : List OutputLine) (r : Except String Unit),
      processInstances svc acct now c l = (c', k, n, r) →
      k.count id + cacheInd c id ≤ 1
      ∧ cacheInd c id ≤ cacheInd c' id
      ∧ (1 ≤ k.count id → 1 ≤ cacheInd c' id) := by
  intro l
  induction l with
  | nil =>
    intro c c' k n r h
    simp only [processInstances, Prod.mk.injEq] at h
    obtain ⟨h1, h2, -, -⟩ := h
    subst h1
    subst h2
    have := cacheInd_le_one c id
    exact ⟨by simp; omega, le_refl _, by simp⟩
  | cons inst rest ih =>
    intro c c' k n r h
    simp only [processInstances] at h
    rcases hA : amiCreation svc c inst.imageId with ⟨c₁, k₁, res⟩
    rw [hA] at h
    have hstep := amiCreation_step_num svc c inst.imageId id img tail hgood
      c₁ k₁ res hA
    have hb1 := cacheInd_le_one c id
    have ha1 := cacheInd_le_one c₁ id
    cases res with
    | error e =>
      simp only [Prod.mk.injEq] at h
      obtain ⟨h1, h2, -, -⟩ := h
      subst h1
      subst h2
      rcases hstep with hstep | ⟨hs1, hs2, hs3⟩ <;>
        exact ⟨by omega, by omega, by omega⟩
    | ok create =>
      cases hP : parseTimestamp create with
      | none =>
        simp only [hP, Prod.mk.injEq] at h
        obtain ⟨h1, h2, -, -⟩ := h
        subst h1
        subst h2
        rcases hstep with hstep | ⟨hs1, hs2, hs3⟩ <;>
          exact ⟨by omega, by omega, by omega⟩
      | some t =>
        simp only [hP] at h
        rcases hR : processInstances svc acct now c₁ rest with ⟨c₂, k₂, n₂, r₂⟩
        rw [hR] at h
        simp only [Prod.mk.injEq] at h
        obtain ⟨h1, h2, -, -⟩ := h
        subst h1
        subst h2
        obtain ⟨iA, iB, iC⟩ := ih c₁ c₂ k₂ n₂ r₂ hR
        have hc2 := cacheInd_le_one c₂ id
        simp only [List.count_append]
        rcases hstep with hstep | ⟨hs1, hs2, hs3⟩
        · refine ⟨by omega, by omega, fun hcnt => ?_⟩
          by_cases h2c : 1 ≤ k₂.count id
          · exact iC h2c
          · omega
        · refine ⟨by omega, by omega, fun hcnt => ?_⟩
          by_cases h2c : 1 ≤ k₂.count id
          · exact iC h2c
          · omega

/-- Call accounting for one account sync (same statement lifted through
the instance-listing step). -/
theorem Sync_calls_inv (svc : EC2) (acct : String) (now : Int) (id : String)
    (img : Image) (tail : List Image)
    (hgood : svc.describeImages id = Except.ok (img :: tail))
    (c c' : Cache) (k : List String) (n : List OutputLine)
    (r : Except String Unit)
    (h : Sync svc acct now c = (c', k, n, r)) :
    k.count id + cacheInd c id ≤ 1
    ∧ cacheInd c id ≤ cacheInd c' id
    ∧ (1 ≤ k.count id → 1 ≤ cacheInd c' id) := by
  unfold Sync at h
  cases hd : svc.describeInstances ["running", "pending"] with
  | error e =>
    rw [hd] at h
    simp only [Prod.mk.injEq] at h
    obtain ⟨h1, h2, -, -⟩ := h
    subst h1
    subst h2
    have := cacheInd_le_one c id
    exact ⟨by simp; omega, le_refl _, by simp⟩
  | ok rs =>
    rw [hd] at h
    exact processInstances_calls_inv svc acct now id img tail hgood
      rs.flatten c c' k n r h

/-- Call accounting for the whole role loop, when every role's client can
describe the tracked image: the run queries it at most once overall,
never once it is cached, and caches it after any query. -/
theorem processRoles_calls_inv (mkSvc : String → EC2) (now : Int)
    (id : String)
    (hgood : ∀ role, ∃ img tail,
      (mkSvc role).describeImages id = Except.ok (img :: tail)) :
    ∀ (roles : List String) (c : Cache) (r : RunResult),
      processRoles mkSvc now c roles = some r →
      r.calls.count id + cacheInd c id ≤ 1
      ∧ cacheInd c id ≤ cacheInd r.cache id
      ∧ (1 ≤ r.calls.count id → 1 ≤ cacheInd r.cache id) := by
  intro roles
  induction roles with
  | nil =>
    intro c r h
    simp only [processRoles, Option.some.injEq] at h
    subst h
    have := cacheInd_le_one c id
    exact ⟨by simp; omega, le_refl _, by simp⟩
  | cons role rest ih =>
    intro c r h
    simp only [processRoles] at h
    by_cases hcom : isCommentLine role = true
    · rw [if_pos hcom] at h
      exact ih c r h
    · rw [if_neg hcom] at h
      cases ha : (splitColon role)[4]? with
      | none => rw [ha] at h; simp at h
      | some acct =>
        rcases hS : Sync (mkSvc role) acct now c with ⟨c₁, k₁, n₁, res⟩
        simp only [ha, hS] at h
        cases hR : processRoles mkSvc now c₁ rest with
        | none => rw [hR] at h; simp at h
        | some r' =>
          rw [hR] at h
          simp only [Option.some.injEq] at h
          subst h
          obtain ⟨img, tail, hgi⟩ := hgood role
          obtain ⟨sA, sB, sC⟩ := Sync_calls_inv (mkSvc role) acct now id
            img tail hgi c c₁ k₁ n₁ res hS
          obtain ⟨iA, iB, iC⟩ := ih c₁ r' hR
          have hc1 := cacheInd_le_one c₁ id
          have hc2 := cacheInd_le_one r'.cache id
          simp only [List.count_append]
          refine ⟨?_, ?_, fun hcnt => ?_⟩
          · by_cases h1c : 1 ≤ k₁.count id
            · have := sC h1c
              omega
            · omega
          · omega
          · by_cases h2c : 1 ≤ r'.calls.count id
            · exact iC h2c
            · have h1c : 1 ≤ k₁.count id := by omega
              have := sC h1c
              omega

/-- C2 (amended): over a whole role-list run starting from the empty
cache, an image identifier whose provider lookups always succeed with at
least one matching image is queried at most once, however many instances
reference it and however many accounts are processed.  (When a lookup for
it fails, nothing is cached and a later account's sync may query it
again; see the counterexample.) -/
theorem claim2_single_query (mkSvc : String → EC2) (now : Int)
    (roles : List String) (id : String) (r : RunResult)
    (hgood : ∀ role, ∃ img tail,
      (mkSvc role).describeImages id = Except.ok (img :: tail))
    (hrun : processRoles mkSvc now [] roles = some r) :
    r.calls.count id ≤ 1 := by
  have h := (processRoles_calls_inv mkSvc now id hgood roles [] r hrun).1
  have h0 : cacheInd [] id = 0 := by simp [cacheInd]
  omega

/-- Counterexample to C2 as stated: the lookup of ami-1 fails during
roleOne's sync (and is not cached), so roleTwo's sync queries the
provider for ami-1 again — two image-metadata lookups for one identifier
in one process. -/
theorem claim2_counterexample :
    (processRoles mkSvcRetry 1704931200000 [] [roleOne, roleTwo]).map
      (fun r => r.calls.count "ami-1") = some 2 := by
  decide

/-- Witness for C2 (amended): two accounts whose instances share ami-1,
with lookups that succeed; the whole run queries ami-1 exactly once. -/
theorem claim2_witness :
    processRoles (fun _ => svcGood) 1704931200000 [] [roleOne, roleTwo]
      = some runGood
    ∧ runGood.calls.count "ami-1" ≤ 1 :=
  ⟨by decide,
   claim2_single_query (fun _ => svcGood) 1704931200000 [roleOne, roleTwo]
     "ami-1" runGood
     (fun _ => ⟨{ creationDate := dateA }, [], rfl⟩)
     (by decide)⟩
